import Mathlib

/-!
Shallow embedding of the Arbi_bot multi-outcome arbitrage bot
(config.py, models.py, scanner.py, executor.py, position_store.py,
polymarket/clob.py, polymarket/websocket_feed.py).

Machine floats are modelled as rationals; Python `round(x, n)` is
round-half-even at `n` decimal digits; Python `int(x)` truncates toward
zero.  Wall-clock latency and timestamps are not modelled (latency
fields are fixed to 0 and timestamps abstracted), since no claim
concerns them.
-/

namespace ArbiBot

/-! ### Python numeric primitives -/

/-- Python `round` ties-to-even on a rational, to the nearest integer. -/
def roundHalfEven (q : ℚ) : ℤ :=
  let f := ⌊q⌋
  let r : ℚ := q - (f : ℚ)
  if r < 1/2 then f
  else if 1/2 < r then f + 1
  else if f % 2 = 0 then f else f + 1

/-- Python `round(q, n)` on a rational. -/
def pyRound (q : ℚ) (n : ℕ) : ℚ :=
  (roundHalfEven (q * (10 : ℚ) ^ n) : ℚ) / (10 : ℚ) ^ n

/-- Python `int(q)`: truncation toward zero. -/
def pyInt (q : ℚ) : ℤ :=
  if q < 0 then ⌈q⌉ else ⌊q⌋

/-- Character-list prefix test. -/
def charsStartWith : List Char → List Char → Bool
  | [], _ => true
  | _ :: _, [] => false
  | n :: ns, h :: hs => n == h && charsStartWith ns hs

/-- Character-list substring test. -/
def charsContain (needle : List Char) : List Char → Bool
  | [] => charsStartWith needle []
  | h :: hs => charsStartWith needle (h :: hs) || charsContain needle hs

/-- Python substring test `needle in hay`. -/
def containsSub (needle hay : String) : Bool :=
  charsContain needle.data hay.data

/-- Python `str.upper()` (ASCII, which is all the code compares). -/
def pyUpper (s : String) : String :=
  ⟨s.data.map Char.toUpper⟩

/-- Python `str.lower()` (ASCII, which is all the code compares). -/
def pyLower (s : String) : String :=
  ⟨s.data.map Char.toLower⟩

/-! ### Data model (models.py) -/

/-- models.OutcomeToken. -/
structure OutcomeToken where
  token_id : String
  outcome_name : String
  market_id : String
  question : String
deriving DecidableEq, Repr

/-- models.MultiOutcomeEvent. -/
structure MultiOutcomeEvent where
  event_id : String
  title : String
  slug : String
  outcomes : List OutcomeToken
  neg_risk : Bool
deriving DecidableEq, Repr

/-- models.OutcomeQuote. -/
structure OutcomeQuote where
  token_id : String
  outcome_name : String
  market_id : String
  best_ask_price : ℚ
  available_size : ℚ
  ask_levels : List (ℚ × ℚ)
deriving DecidableEq, Repr

/-- models.ArbitrageOpportunity. -/
structure ArbitrageOpportunity where
  event_id : String
  event_title : String
  event_slug : String
  quotes : List OutcomeQuote
  total_cost : ℚ
  profit_per_share : ℚ
  profit_pct : ℚ
  executable_size : ℚ
  neg_risk : Bool
deriving DecidableEq, Repr

/-- models.LegFill. -/
structure LegFill where
  token_id : String
  outcome_name : String
  planned_price : ℚ
  actual_price : Option ℚ
  planned_size : ℚ
  filled_size : ℚ
  order_id : Option String
  fill_ts : Option String
  latency_ms : ℚ
  status : String
  error : Option String
deriving DecidableEq, Repr

/-- models.ExecutionResult. -/
structure ExecutionResult where
  opportunity : ArbitrageOpportunity
  leg_fills : List LegFill
  total_latency_ms : ℚ
  all_filled : Bool
  total_cost_actual : ℚ
  total_filled_size : ℚ
  num_legs_filled : ℕ
  num_legs_failed : ℕ
deriving DecidableEq, Repr

/-! ### Configuration defaults (config.py) -/

def MIN_PROFIT_PCT : ℚ := 2

def MAX_PROFIT_PCT : ℚ := 15

def MIN_EXECUTABLE_SIZE : ℚ := 5

def MAX_POSITION_COST : ℚ := 20

def LIVE_PRICE_BUFFER : ℚ := 2/100

def MAX_QUOTE_STALENESS_S : ℚ := 5

/-! ### Scanner (scanner.py) -/

/-- `sum(q.best_ask_price for q in quotes)`. -/
def totalCost (quotes : List OutcomeQuote) : ℚ :=
  (quotes.map (·.best_ask_price)).sum

/-- `(profit_per_share / total_cost) * 100` (division by zero yields 0 in ℚ;
in Python the zero case is a raised exception, observationally equivalent
to rejection for every caller in this repository). -/
def profitPct (quotes : List OutcomeQuote) : ℚ :=
  ((1 - totalCost quotes) / totalCost quotes) * 100

/-- `min(q.available_size for q in quotes)` (0 on the empty list, which in
Python raises; unreachable behind the profit checks). -/
def minAvailableSize : List OutcomeQuote → ℚ
  | [] => 0
  | q :: qs => qs.foldl (fun m q2 => min m q2.available_size) q.available_size

/-- scanner.detect_arbitrage. -/
def detect_arbitrage (event : MultiOutcomeEvent) (quotes : List OutcomeQuote)
    (remaining_budget : Option ℚ) : Option ArbitrageOpportunity :=
  let budget := remaining_budget.getD MAX_POSITION_COST
  if budget ≤ 0 then none
  else if ¬ (∀ q ∈ quotes, 0 < q.best_ask_price ∧ 0 < q.available_size) then none
  else if 1 - totalCost quotes ≤ 0 then none
  else if profitPct quotes < MIN_PROFIT_PCT then none
  else if MAX_PROFIT_PCT < profitPct quotes then none
  else if quotes = [] then none
  else if minAvailableSize quotes < MIN_EXECUTABLE_SIZE then none
  else
    let execSize :=
      if 0 < totalCost quotes
      then min (minAvailableSize quotes) (budget / totalCost quotes)
      else minAvailableSize quotes
    if execSize < MIN_EXECUTABLE_SIZE then none
    else some
      { event_id := event.event_id
        event_title := event.title
        event_slug := event.slug
        quotes := quotes
        total_cost := totalCost quotes
        profit_per_share := 1 - totalCost quotes
        profit_pct := profitPct quotes
        executable_size := execSize
        neg_risk := event.neg_risk }

/-- Stable descending insertion by profit_pct: an incoming element goes
after every already-placed element of greater or equal profit, which is
exactly the order Python's stable `list.sort(key, reverse=True)` yields. -/
def insertOppDesc (x : ArbitrageOpportunity) :
    List ArbitrageOpportunity → List ArbitrageOpportunity
  | [] => [x]
  | y :: ys =>
      if x.profit_pct ≤ y.profit_pct then y :: insertOppDesc x ys
      else x :: y :: ys

/-- `opportunities.sort(key=lambda o: o.profit_pct, reverse=True)`. -/
def sortByProfitDesc (l : List ArbitrageOpportunity) : List ArbitrageOpportunity :=
  l.foldl (fun acc x => insertOppDesc x acc) []

/-- The pre-sort collection loop of scanner.scan_for_opportunities:
skip events with exhausted budget, evaluate the rest, keep hits.
`quotesOf` stands for `quote_event` (network I/O) and `costs` for
`position_costs.get(event_id, 0.0)`. -/
def collectOpportunities (events : List MultiOutcomeEvent)
    (quotesOf : MultiOutcomeEvent → List OutcomeQuote)
    (costs : String → ℚ) : List ArbitrageOpportunity :=
  events.filterMap (fun event =>
    if MAX_POSITION_COST - costs event.event_id ≤ 0 then none
    else detect_arbitrage event (quotesOf event)
      (some (MAX_POSITION_COST - costs event.event_id)))

/-- scanner.scan_for_opportunities. -/
def scan_for_opportunities (events : List MultiOutcomeEvent)
    (quotesOf : MultiOutcomeEvent → List OutcomeQuote)
    (costs : String → ℚ) : List ArbitrageOpportunity :=
  sortByProfitDesc (collectOpportunities events quotesOf costs)

/-! ### Position store (position_store.py)

The JSON state file is modelled by its parsed contents; Python's JSON
round-trips ints and float reprs exactly, so serialisation itself is the
identity in the model and the only transformation is the `round(v, 6)`
applied by `save_positions`. -/

/-- The contents of the position-state JSON file. -/
structure PositionStateFile where
  position_costs : List (String × ℚ)
  event_last_traded : List (String × ℤ)
  event_traded_costs : List (String × ℚ)
deriving DecidableEq, Repr

/-- position_store.save_positions: the state written to disk. -/
def save_positions (position_costs : List (String × ℚ))
    (event_last_traded : List (String × ℤ))
    (event_traded_costs : List (String × ℚ)) : PositionStateFile :=
  { position_costs := position_costs.map (fun kv => (kv.1, pyRound kv.2 6))
    event_last_traded := event_last_traded
    event_traded_costs := event_traded_costs.map (fun kv => (kv.1, pyRound kv.2 6)) }

/-- position_store.load_positions: read the file back (missing file yields
empty maps; `float`/`int` coercions are identities in the model). -/
def load_positions (file : Option PositionStateFile) : PositionStateFile :=
  match file with
  | none => ⟨[], [], []⟩
  | some s => s

/-! ### Quote cache (polymarket/websocket_feed.py)

The feed callbacks mutate OrderbookFeed state under one lock; the model is
the induced deterministic transition system on that state.  The outer
dicts `_asks` and `_last_update` are modelled as lookup functions, the
per-token ask dict as an insertion-ordered association list (Python dict
semantics: update in place, new keys appended). -/

/-- Insertion-ordered dict upsert, Python semantics. -/
def dictUpsert (d : List (ℚ × ℚ)) (k v : ℚ) : List (ℚ × ℚ) :=
  if d.any (fun kv => kv.1 == k) then
    d.map (fun kv => if kv.1 == k then (k, v) else kv)
  else d ++ [(k, v)]

/-- Python `dict.pop(k, None)`. -/
def dictRemove (d : List (ℚ × ℚ)) (k : ℚ) : List (ℚ × ℚ) :=
  d.filter (fun kv => ¬ (kv.1 == k))

/-- Stable ascending insertion by price, matching Python `sorted` on the
first tuple component. -/
def insertAskAsc (x : ℚ × ℚ) : List (ℚ × ℚ) → List (ℚ × ℚ)
  | [] => [x]
  | y :: ys => if y.1 ≤ x.1 then y :: insertAskAsc x ys else x :: y :: ys

/-- Python `sorted(levels, key=lambda x: x[0])`. -/
def sortAsksAsc (l : List (ℚ × ℚ)) : List (ℚ × ℚ) :=
  l.foldl (fun acc x => insertAskAsc x acc) []

/-- OrderbookFeed mutable state. -/
structure FeedState where
  asks : String → Option (List (ℚ × ℚ))
  ready : List String
  lastUpdate : String → Option ℚ
  subscribed : List String
  connected : Bool

/-- OrderbookFeed.__init__. -/
def initFeed : FeedState :=
  { asks := fun _ => none
    ready := []
    lastUpdate := fun _ => none
    subscribed := []
    connected := false }

/-- One parsed price_change entry: (asset_id, side, price, size). -/
structure PriceChange where
  asset_id : String
  side : String
  price : ℚ
  size : ℚ

/-- External happenings reaching the feed: parsed "book" and
"price_change" messages, socket close/open, and subscribe calls. -/
inductive FeedEvent where
  | book (asset_id : String) (levels : List (ℚ × ℚ))
  | priceChange (changes : List PriceChange)
  | wsClose
  | wsOpen
  | subscribeTokens (tokens : List String)

/-- OrderbookFeed._handle_event "book" branch. -/
def handleBook (s : FeedState) (now : ℚ) (asset_id : String)
    (levels : List (ℚ × ℚ)) : FeedState :=
  if asset_id = "" then s
  else
    let asksDict := levels.foldl
      (fun d lvl => if 0 < lvl.1 ∧ 0 < lvl.2 then dictUpsert d lvl.1 lvl.2 else d) []
    { s with
      asks := fun t => if t = asset_id then some asksDict else s.asks t
      ready := if asset_id ∈ s.ready then s.ready else s.ready ++ [asset_id]
      lastUpdate := fun t => if t = asset_id then some now else s.lastUpdate t }

/-- OrderbookFeed._handle_event "price_change" branch, one change: stamp
last_update for ready assets, and on a SELL change upsert or remove the
touched ask level of an already-cached book. -/
def handlePriceChange1 (s : FeedState) (now : ℚ) (pc : PriceChange) : FeedState :=
  if pc.asset_id = "" ∨ pc.asset_id ∉ s.ready then s
  else
    { s with
      lastUpdate := fun t => if t = pc.asset_id then some now else s.lastUpdate t
      asks :=
        match (if pyUpper pc.side = "SELL" then s.asks pc.asset_id else none) with
        | none => s.asks
        | some book =>
            fun t =>
              if t = pc.asset_id then
                some (if 0 < pc.size then dictUpsert book pc.price pc.size
                      else dictRemove book pc.price)
              else s.asks t }

/-- OrderbookFeed state transition for one external event. -/
def feedStep (s : FeedState) (now : ℚ) : FeedEvent → FeedState
  | .book asset_id levels => handleBook s now asset_id levels
  | .priceChange changes => changes.foldl (fun st pc => handlePriceChange1 st now pc) s
  | .wsClose => { s with connected := false }
  | .wsOpen => { s with connected := true }
  | .subscribeTokens tokens =>
      { s with subscribed := s.subscribed ++ tokens.filter (fun t => t ∉ s.subscribed) }

/-- Run the feed from its initial state over a timestamped event trace. -/
def runFeed (trace : List (ℚ × FeedEvent)) : FeedState :=
  trace.foldl (fun s e => feedStep s e.1 e.2) initFeed

/-- OrderbookFeed.get_asks. -/
def get_asks (s : FeedState) (token_id : String) : Option (List (ℚ × ℚ)) :=
  if token_id ∈ s.ready then
    some (sortAsksAsc (((s.asks token_id).getD []).filter (fun kv => decide (0 < kv.2))))
  else none

/-- OrderbookFeed.get_staleness. -/
def get_staleness (s : FeedState) (token_id : String) (now : ℚ) : Option ℚ :=
  (s.lastUpdate token_id).map (fun ts => now - ts)

/-! ### Order transport (polymarket/clob.py)

Network responses are supplied by an oracle environment; the embedding
covers the request construction and response handling logic. -/

/-- The dict returned by clob.place_order. -/
structure OrderResponse where
  success : Bool
  order_id : Option String
  status : String
  error : Option String
deriving DecidableEq, Repr

/-- A concrete order submission handed to the venue (arguments of a
clob.place_order call). -/
structure PlacedOrder where
  token_id : String
  price : ℚ
  size : ℚ
  side : String
  order_type : String
deriving DecidableEq, Repr

/-- Venue oracle: responses to order placements and the terminal
(status, filled_size, avg_price) outcome of clob.poll_order_status. -/
structure Venue where
  placeOrder : PlacedOrder → OrderResponse
  pollOrderStatus : String → String × ℚ × ℚ

/-- clob.sell_position: the sell order it submits for an unwind. -/
def sell_position_order (token_id : String) (size : ℚ) (price : ℚ) : PlacedOrder :=
  { token_id := token_id
    price := max (1/100) (pyRound (price - 2/100) 2)
    size := size
    side := "SELL"
    order_type := "GTC" }

/-! ### Executor (executor.py) -/

/-- Wall-clock timestamp, not modelled. -/
def utcTs : String := ""

/-- executor._execute_single_leg_paper. -/
def execute_single_leg_paper (quote : OutcomeQuote) (size : ℚ) : LegFill :=
  { token_id := quote.token_id
    outcome_name := quote.outcome_name
    planned_price := quote.best_ask_price
    actual_price := some quote.best_ask_price
    planned_size := size
    filled_size := size
    order_id := some "paper"
    fill_ts := some utcTs
    latency_ms := 0
    status := "filled"
    error := none }

/-- The FOK-unsupported test in executor._execute_single_leg_live:
`"FOK" in str(error).upper() or "unsupported" in str(error).lower()`. -/
def isFokUnsupported (error : String) : Bool :=
  containsSub "FOK" (pyUpper error) || containsSub "unsupported" (pyLower error)

/-- `limit_price = min(round(best_ask + LIVE_PRICE_BUFFER, 2), 0.99)` in
executor._execute_single_leg_live. -/
def legLimitPrice (quote : OutcomeQuote) : ℚ :=
  min (pyRound (quote.best_ask_price + LIVE_PRICE_BUFFER) 2) (99/100)

/-- The FOK buy order submitted for a leg. -/
def fokRequest (quote : OutcomeQuote) (size : ℚ) : PlacedOrder :=
  { token_id := quote.token_id, price := legLimitPrice quote, size := size
    side := "BUY", order_type := "FOK" }

/-- The GTC fallback buy order for a leg. -/
def gtcRequest (quote : OutcomeQuote) (size : ℚ) : PlacedOrder :=
  { token_id := quote.token_id, price := legLimitPrice quote, size := size
    side := "BUY", order_type := "GTC" }

/-- executor._execute_single_leg_live.  Returns the LegFill together with
the list of orders actually submitted to the venue. -/
def execute_single_leg_live (allowGtcFallback : Bool) (venue : Venue)
    (quote : OutcomeQuote) (size : ℚ) : LegFill × List PlacedOrder :=
  let result0 := venue.placeOrder (fokRequest quote size)
  let fallback := !result0.success &&
    isFokUnsupported (result0.error.getD "") && allowGtcFallback
  let result := if fallback then venue.placeOrder (gtcRequest quote size) else result0
  let orders := if fallback then [fokRequest quote size, gtcRequest quote size]
                else [fokRequest quote size]
  if result.success then
    let polled := venue.pollOrderStatus (result.order_id.getD "")
    ({ token_id := quote.token_id
       outcome_name := quote.outcome_name
       planned_price := quote.best_ask_price
       actual_price := if 0 < polled.2.1 then some polled.2.2 else none
       planned_size := size
       filled_size := polled.2.1
       order_id := result.order_id
       fill_ts := if 0 < polled.2.1 then some utcTs else none
       latency_ms := 0
       status := polled.1
       error := if polled.1 = "filled" then none else some ("status: " ++ polled.1) },
     orders)
  else
    ({ token_id := quote.token_id
       outcome_name := quote.outcome_name
       planned_price := quote.best_ask_price
       actual_price := none
       planned_size := size
       filled_size := 0
       order_id := result.order_id
       fill_ts := none
       latency_ms := 0
       status := "rejected"
       error := result.error },
     orders)

/-- scanner.quote_event with ws_feed=None, one outcome: build an
OutcomeQuote from an HTTP ask book (price 0, size 0 when no asks). -/
def quoteFromAsks (q : OutcomeQuote) (asks : List (ℚ × ℚ)) : OutcomeQuote :=
  match asks with
  | [] => { q with best_ask_price := 0, available_size := 0, ask_levels := [] }
  | a :: rest =>
      { q with best_ask_price := a.1, available_size := a.2
               ask_levels := (a :: rest).take 10 }

/-- The WS-cache re-read of one leg in executor._refresh_quotes (`none`
when the cached book is absent or empty, which forces the HTTP path). -/
def refreshQuoteFromWS (fs : FeedState) (q : OutcomeQuote) : Option OutcomeQuote :=
  match get_asks fs q.token_id with
  | some (a :: rest) =>
      some { q with best_ask_price := a.1, available_size := a.2
                    ask_levels := (a :: rest).take 10 }
  | _ => none

/-- executor._refresh_quotes.  `ws` is the feed state paired with the
current monotonic time; `http` is the get_orderbook oracle per token. -/
def refresh_quotes (ws : Option (FeedState × ℚ)) (http : String → List (ℚ × ℚ))
    (opp : ArbitrageOpportunity) : Option (List OutcomeQuote) :=
  let needsHttp :=
    match ws with
    | none => true
    | some (fs, now) =>
        opp.quotes.any (fun q =>
          match get_staleness fs q.token_id now with
          | none => true
          | some st => decide (MAX_QUOTE_STALENESS_S < st))
  let wsRefreshed : Option (List OutcomeQuote) :=
    if needsHttp then none
    else ws.bind (fun p => opp.quotes.mapM (refreshQuoteFromWS p.1))
  match wsRefreshed with
  | some refreshed =>
      if 1 ≤ totalCost refreshed then none else some refreshed
  | none =>
      let refreshed := opp.quotes.map (fun q => quoteFromAsks q (http q.token_id))
      if 1 ≤ totalCost refreshed then none
      else if ∃ q ∈ refreshed, q.best_ask_price ≤ 0 ∨ q.available_size ≤ 0 then none
      else some refreshed

/-- Aggregation step of executor.execute_opportunity over the leg fills. -/
def aggregateResult (opp : ArbitrageOpportunity) (fills : List LegFill) :
    ExecutionResult :=
  let filledLegs := fills.filter (fun f => f.status == "filled")
  let failedLegs := fills.filter (fun f => !(f.status == "filled"))
  { opportunity := opp
    leg_fills := fills
    total_latency_ms := 0
    all_filled := failedLegs.length = 0
    total_cost_actual := (fills.map (fun f => f.actual_price.getD f.planned_price)).sum
    total_filled_size :=
      match filledLegs with
      | [] => 0
      | f :: fs => fs.foldl (fun m g => min m g.filled_size) f.filled_size
    num_legs_filled := filledLegs.length
    num_legs_failed := failedLegs.length }

/-- executor._handle_partial_execution: the compensating sell orders it
submits (one clob.sell_position call per leg with status "filled" and a
positive filled size; unwind polling only logs and is not modelled). -/
def handlePartialExecution (fills : List LegFill) : List PlacedOrder :=
  (fills.filter (fun f => f.status == "filled" && decide (0 < f.filled_size))).map
    (fun leg =>
      sell_position_order leg.token_id leg.filled_size
        (leg.actual_price.getD leg.planned_price))

/-- The compensation trigger in executor.execute_opportunity:
`if not all_filled and filled_legs and not is_paper`. -/
def compensationOrders (is_paper : Bool) (fills : List LegFill) : List PlacedOrder :=
  let filledLegs := fills.filter (fun f => f.status == "filled")
  let failedLegs := fills.filter (fun f => !(f.status == "filled"))
  if ¬ failedLegs.length = 0 ∧ ¬ filledLegs = [] ∧ ¬ is_paper = true then
    handlePartialExecution fills
  else []

/-- executor.execute_opportunity.  Returns the ExecutionResult together
with every order submitted to the venue (buy legs then compensating
sells).  Leg placements are modelled sequentially; every aggregate the
claims mention is insensitive to the completion order of the pool. -/
def execute_opportunity (mode : String) (allowGtcFallback : Bool) (venue : Venue)
    (ws : Option (FeedState × ℚ)) (http : String → List (ℚ × ℚ))
    (opp : ArbitrageOpportunity) (size : Option ℚ) :
    ExecutionResult × List PlacedOrder :=
  let execSize0 :=
    match size with
    | some s => if s = 0 then opp.executable_size else s
    | none => opp.executable_size
  let execSize1 : ℚ := (pyInt execSize0 : ℚ)
  let execSize2 := if execSize1 < 1 then 1 else execSize1
  let is_paper := mode == "paper"
  if is_paper then
    let fills := opp.quotes.map (fun q => execute_single_leg_paper q execSize2)
    (aggregateResult opp fills, compensationOrders is_paper fills)
  else
    match refresh_quotes ws http opp with
    | none =>
        ({ opportunity := opp
           leg_fills := []
           total_latency_ms := 0
           all_filled := false
           total_cost_actual := 0
           total_filled_size := 0
           num_legs_filled := 0
           num_legs_failed := opp.quotes.length }, [])
    | some refreshed =>
        let newCost := totalCost refreshed
        let opp2 : ArbitrageOpportunity :=
          { opp with
            quotes := refreshed
            total_cost := newCost
            profit_per_share := 1 - newCost
            profit_pct := ((1 - newCost) / newCost) * 100
            executable_size := minAvailableSize refreshed }
        let execSize3 := min execSize2 ((pyInt opp2.executable_size : ℤ) : ℚ)
        let execSize4 := if execSize3 < 1 then 1 else execSize3
        let legResults := opp2.quotes.map
          (fun q => execute_single_leg_live allowGtcFallback venue q execSize4)
        let fills := legResults.map (·.1)
        let buyOrders := (legResults.map (·.2)).flatten
        (aggregateResult opp2 fills,
         buyOrders ++ compensationOrders is_paper fills)

/-- Test fixture: a venue that rejects atomic (FOK) orders as
unsupported and accepts resting (GTC) orders, reporting them filled. -/
def fokRejectingVenue : Venue :=
  { placeOrder := fun o =>
      if o.order_type = "FOK" then
        { success := false, order_id := none, status := "rejected"
          error := some "FOK not supported" }
      else
        { success := true, order_id := some "oid", status := "submitted"
          error := none }
    pollOrderStatus := fun _ => ("filled", 5, 12/25) }

/-! ### Helper lemmas -/

theorem roundHalfEven_intCast (n : ℤ) : roundHalfEven (n : ℚ) = n := by
  unfold roundHalfEven
  simp only [Int.floor_intCast, sub_self]
  norm_num

theorem pyRound_six_exact (n : ℤ) : pyRound ((n : ℚ) / 10 ^ 6) 6 = (n : ℚ) / 10 ^ 6 := by
  unfold pyRound
  have h : ((n : ℚ) / 10 ^ 6) * (10 : ℚ) ^ 6 = (n : ℚ) := by
    field_simp
  rw [h, roundHalfEven_intCast]

theorem map_pyRound_six_id (l : List (String × ℚ))
    (h : ∀ kv ∈ l, ∃ n : ℤ, kv.2 = (n : ℚ) / 10 ^ 6) :
    l.map (fun kv => (kv.1, pyRound kv.2 6)) = l := by
  induction l with
  | nil => rfl
  | cons a t ih =>
      obtain ⟨n, hn⟩ := h a (List.mem_cons_self a t)
      have ht := ih (fun kv hkv => h kv (List.mem_cons_of_mem a hkv))
      have hp : pyRound a.2 6 = a.2 := by rw [hn]; exact pyRound_six_exact n
      simp only [List.map_cons, ht, hp]

/-! ### Claim C9 -/

/-- C9 counterexample: with two legs priced 0.49 with size 1000,
detect_arbitrage with an absent budget caps the executable size at
MAX_POSITION_COST / total_cost (1000/49 ≈ 20.4 shares) while a large
budget of 1,000,000 yields 1000 shares, so an absent budget is not
treated as unlimited. -/
theorem c9_counterexample :
    detect_arbitrage ⟨"e1", "t", "s", [], false⟩
      [⟨"a", "a", "a", 49/100, 1000, []⟩, ⟨"b", "b", "b", 49/100, 1000, []⟩] none ≠
    detect_arbitrage ⟨"e1", "t", "s", [], false⟩
      [⟨"a", "a", "a", 49/100, 1000, []⟩, ⟨"b", "b", "b", 49/100, 1000, []⟩]
      (some 1000000) := by
  have h1 : detect_arbitrage ⟨"e1", "t", "s", [], false⟩
      [⟨"a", "a", "a", 49/100, 1000, []⟩, ⟨"b", "b", "b", 49/100, 1000, []⟩] none =
      some ⟨"e1", "t", "s",
        [⟨"a", "a", "a", 49/100, 1000, []⟩, ⟨"b", "b", "b", 49/100, 1000, []⟩],
        49/50, 1/50, 100/49, 1000/49, false⟩ := by
    norm_num [detect_arbitrage, totalCost, profitPct, minAvailableSize, min_def,
      MIN_PROFIT_PCT, MAX_PROFIT_PCT, MIN_EXECUTABLE_SIZE, MAX_POSITION_COST,
      List.forall_mem_cons]
    intro h
    exact (List.cons_ne_nil _ _ h).elim
  have h2 : detect_arbitrage ⟨"e1", "t", "s", [], false⟩
      [⟨"a", "a", "a", 49/100, 1000, []⟩, ⟨"b", "b", "b", 49/100, 1000, []⟩]
      (some 1000000) =
      some ⟨"e1", "t", "s",
        [⟨"a", "a", "a", 49/100, 1000, []⟩, ⟨"b", "b", "b", 49/100, 1000, []⟩],
        49/50, 1/50, 100/49, 1000, false⟩ := by
    norm_num [detect_arbitrage, totalCost, profitPct, minAvailableSize, min_def,
      MIN_PROFIT_PCT, MAX_PROFIT_PCT, MIN_EXECUTABLE_SIZE, MAX_POSITION_COST,
      List.forall_mem_cons]
    intro h
    exact (List.cons_ne_nil _ _ h).elim
  rw [h1, h2]
  intro h
  simp only [Option.some.injEq, ArbitrageOpportunity.mk.injEq] at h
  norm_num at h

/-- C9 (amended): when the remaining_budget argument is absent,
detect_arbitrage behaves exactly as if the budget were
MAX_POSITION_COST (the configured per-event cap, default 20.0), not as
if it were unlimited. -/
theorem c9_absent_budget_is_max_position_cost
    (event : MultiOutcomeEvent) (quotes : List OutcomeQuote) :
    detect_arbitrage event quotes none =
      detect_arbitrage event quotes (some MAX_POSITION_COST) := rfl

/-! ### Claim C7 -/

/-- C7 counterexample: a spend of 10⁻⁷ dollars is rounded to 6 decimal
places by save_positions, so save followed by load yields a spend of 0,
not the value that was saved. -/
theorem c7_counterexample :
    (load_positions (some (save_positions [("e", 1/10000000)] [] []))).position_costs ≠
      [("e", (1 : ℚ)/10000000)] := by
  have hfl : ⌊(1:ℚ)/10⌋ = 0 := by norm_num
  have hr : pyRound ((1:ℚ)/10000000) 6 = 0 := by
    unfold pyRound roundHalfEven
    norm_num [hfl]
  simp only [load_positions, save_positions, List.map_cons, List.map_nil, hr]
  intro h
  simp only [List.cons.injEq, Prod.mk.injEq] at h
  norm_num at h

/-- C7 (amended): save followed by load reproduces the last-traded
(cooldown) map exactly, and reproduces the spend map exactly whenever
every spend value is an integer multiple of 10⁻⁶ (save rounds spend
values to 6 decimal places, so finer values are rounded). -/
theorem c7_round_trip (position_costs : List (String × ℚ))
    (event_last_traded : List (String × ℤ))
    (event_traded_costs : List (String × ℚ))
    (h : ∀ kv ∈ position_costs, ∃ n : ℤ, kv.2 = (n : ℚ) / 10 ^ 6) :
    (load_positions (some (save_positions position_costs event_last_traded
        event_traded_costs))).position_costs = position_costs ∧
    (load_positions (some (save_positions position_costs event_last_traded
        event_traded_costs))).event_last_traded = event_last_traded := by
  exact ⟨map_pyRound_six_id position_costs h, rfl⟩

/-- C7 witness: a concrete round trip through save and load at spend
3·10⁻⁶ and scan index 7. -/
theorem c7_round_trip_witness :
    (load_positions (some (save_positions [("e", (3 : ℚ)/1000000)] [("e", 7)]
        []))).position_costs = [("e", (3 : ℚ)/1000000)] ∧
    (load_positions (some (save_positions [("e", (3 : ℚ)/1000000)] [("e", 7)]
        []))).event_last_traded = [("e", 7)] :=
  c7_round_trip [("e", (3 : ℚ)/1000000)] [("e", 7)] []
    (by
      intro kv hkv
      simp only [List.mem_singleton] at hkv
      subst hkv
      exact ⟨3, by norm_num⟩)

/-! ### Quote-cache invariant lemmas -/

/-- The cache domain invariant: a token is marked ready exactly when it
has a last-update timestamp. -/
def FeedInv (s : FeedState) : Prop :=
  ∀ t, t ∈ s.ready ↔ (s.lastUpdate t).isSome = true

theorem feedInv_init : FeedInv initFeed := by
  intro t
  simp [initFeed]

theorem feedInv_handleBook (s : FeedState) (now : ℚ) (asset_id : String)
    (levels : List (ℚ × ℚ)) (h : FeedInv s) :
    FeedInv (handleBook s now asset_id levels) := by
  intro t
  unfold handleBook
  by_cases ha : asset_id = ""
  · rw [if_pos ha]
    exact h t
  · rw [if_neg ha]
    dsimp only
    by_cases ht : t = asset_id
    · subst ht
      simp only [if_pos rfl, Option.isSome_some, iff_true]
      by_cases hr : t ∈ s.ready
      · simp [hr]
      · simp [hr]
    · rw [if_neg ht, ← h t]
      by_cases hr : asset_id ∈ s.ready
      · simp [hr]
      · simp [hr, List.mem_append, ht]

theorem feedInv_handlePriceChange1 (s : FeedState) (now : ℚ) (pc : PriceChange)
    (h : FeedInv s) : FeedInv (handlePriceChange1 s now pc) := by
  intro t
  unfold handlePriceChange1
  by_cases hc : pc.asset_id = "" ∨ pc.asset_id ∉ s.ready
  · rw [if_pos hc]
    exact h t
  · rw [if_neg hc]
    push_neg at hc
    dsimp only
    by_cases ht : t = pc.asset_id
    · subst ht
      simp [hc.2]
    · rw [if_neg ht]
      exact h t

theorem feedInv_foldPC (now : ℚ) (l : List PriceChange) (s : FeedState)
    (h : FeedInv s) :
    FeedInv (l.foldl (fun st pc => handlePriceChange1 st now pc) s) := by
  induction l generalizing s with
  | nil => exact h
  | cons pc rest ih => exact ih _ (feedInv_handlePriceChange1 s now pc h)

theorem feedInv_step (s : FeedState) (now : ℚ) (e : FeedEvent) (h : FeedInv s) :
    FeedInv (feedStep s now e) := by
  cases e with
  | book asset_id levels => exact feedInv_handleBook s now asset_id levels h
  | priceChange changes => exact feedInv_foldPC now changes s h
  | wsClose => exact h
  | wsOpen => exact h
  | subscribeTokens tokens => exact h

theorem feedInv_foldTrace (trace : List (ℚ × FeedEvent)) (s : FeedState)
    (h : FeedInv s) :
    FeedInv (trace.foldl (fun st e => feedStep st e.1 e.2) s) := by
  induction trace generalizing s with
  | nil => exact h
  | cons e rest ih => exact ih _ (feedInv_step s e.1 e.2 h)

theorem feedInv_run (trace : List (ℚ × FeedEvent)) : FeedInv (runFeed trace) :=
  feedInv_foldTrace trace initFeed feedInv_init

/-! ### Claim C10 -/

/-- C10: after any trace of feed events, get_staleness returns absent
exactly when get_asks returns absent: the ready mark and the last-update
timestamp always agree on which tokens are cached. -/
theorem c10_staleness_agrees_with_asks (trace : List (ℚ × FeedEvent))
    (token : String) (now : ℚ) :
    get_staleness (runFeed trace) token now = none ↔
      get_asks (runFeed trace) token = none := by
  have h := feedInv_run trace token
  unfold get_staleness get_asks
  by_cases hr : token ∈ (runFeed trace).ready
  · have hs : ((runFeed trace).lastUpdate token).isSome = true := h.mp hr
    rw [if_pos hr]
    simp only [Option.map_eq_none']
    constructor
    · intro hnone
      rw [hnone] at hs
      cases hs
    · intro hsome
      cases hsome
  · have hs : ((runFeed trace).lastUpdate token) = none := by
      cases hopt : (runFeed trace).lastUpdate token with
      | none => rfl
      | some v =>
          exact absurd (h.mpr (by rw [hopt]; rfl)) hr
    rw [if_neg hr, hs]
    simp

/-! ### Claim C4 -/

/-- C4 counterexample: subscribe, receive one snapshot for "t1",
disconnect, reconnect.  Before any post-reconnect snapshot, get_asks
still returns the pre-disconnect cached book rather than a miss. -/
theorem c4_counterexample :
    get_asks (runFeed [(0, .subscribeTokens ["t1"]), (1, .wsOpen),
      (2, .book "t1" [(1, 10)]), (3, .wsClose), (4, .wsOpen)]) "t1" =
      some [(1, 10)] := by
  decide

/-- C4 (amended): disconnect and reconnect do not invalidate the quote
cache: get_asks is unchanged by the close and open transitions, so reads
in the reconnect window return the pre-disconnect cached book; a read is
a miss precisely for tokens that never received a snapshot (not ready). -/
theorem c4_cache_survives_reconnect (s : FeedState) (now : ℚ) (token : String) :
    get_asks (feedStep s now .wsClose) token = get_asks s token ∧
    get_asks (feedStep s now .wsOpen) token = get_asks s token ∧
    (get_asks s token = none ↔ token ∉ s.ready) := by
  refine ⟨rfl, rfl, ?_⟩
  by_cases hr : token ∈ s.ready <;> simp [get_asks, hr]

/-! ### Scanner lemmas -/

theorem totalCost_pos (quotes : List OutcomeQuote) (hne : quotes ≠ [])
    (h : ∀ q ∈ quotes, 0 < q.best_ask_price) : 0 < totalCost quotes := by
  unfold totalCost
  refine List.sum_pos _ ?_ ?_
  · intro x hx
    obtain ⟨q, hq, rfl⟩ := List.mem_map.mp hx
    exact h q hq
  · intro hmap
    exact hne (List.map_eq_nil_iff.mp hmap)

theorem profitPct_nil : profitPct [] = 0 := by
  simp [profitPct, totalCost]

/-! ### Claim C1 -/

/-- C1: for a basket whose quotes are all valid (positive ask and size),
with total cost below 1, profit percentage inside the configured band,
positive remaining budget and budget-capped size at least
MIN_EXECUTABLE_SIZE, detect_arbitrage returns an opportunity whose
executable_size is min(min leg size, remaining_budget / total_cost). -/
theorem c1_detect_returns_budget_capped_size
    (event : MultiOutcomeEvent) (quotes : List OutcomeQuote) (budget : ℚ)
    (hvalid : ∀ q ∈ quotes, 0 < q.best_ask_price ∧ 0 < q.available_size)
    (hcost : totalCost quotes < 1)
    (hmin : MIN_PROFIT_PCT ≤ profitPct quotes)
    (hmax : profitPct quotes ≤ MAX_PROFIT_PCT)
    (hbudget : 0 < budget)
    (hsize : MIN_EXECUTABLE_SIZE ≤
      min (minAvailableSize quotes) (budget / totalCost quotes)) :
    ∃ opp, detect_arbitrage event quotes (some budget) = some opp ∧
      opp.executable_size =
        min (minAvailableSize quotes) (budget / totalCost quotes) := by
  have hne : quotes ≠ [] := by
    intro h
    rw [h, profitPct_nil] at hmin
    norm_num [MIN_PROFIT_PCT] at hmin
  have hc0 : 0 < totalCost quotes :=
    totalCost_pos quotes hne (fun q hq => (hvalid q hq).1)
  unfold detect_arbitrage
  simp only [Option.getD_some]
  rw [if_neg (not_le.mpr hbudget)]
  rw [if_neg (not_not_intro hvalid)]
  rw [if_neg (not_le.mpr (by linarith : (0 : ℚ) < 1 - totalCost quotes))]
  rw [if_neg (not_lt.mpr hmin)]
  rw [if_neg (not_lt.mpr hmax)]
  rw [if_neg hne]
  rw [if_neg (not_lt.mpr (le_trans hsize (min_le_left _ _)))]
  rw [if_pos hc0]
  rw [if_neg (not_lt.mpr hsize)]
  exact ⟨_, rfl, rfl⟩

/-- C1 witness: three legs at 0.30 with size 1000 and a remaining budget
of 200 produce an opportunity sized min(1000, 200/0.9). -/
theorem c1_witness :
    ∃ opp, detect_arbitrage ⟨"e1", "t", "s", [], false⟩
        [⟨"a", "a", "a", 3/10, 1000, []⟩, ⟨"b", "b", "b", 3/10, 1000, []⟩,
         ⟨"c", "c", "c", 3/10, 1000, []⟩] (some 200) = some opp ∧
      opp.executable_size =
        min (minAvailableSize
              [⟨"a", "a", "a", 3/10, 1000, []⟩, ⟨"b", "b", "b", 3/10, 1000, []⟩,
               ⟨"c", "c", "c", 3/10, 1000, []⟩])
            (200 / totalCost
              [⟨"a", "a", "a", 3/10, 1000, []⟩, ⟨"b", "b", "b", 3/10, 1000, []⟩,
               ⟨"c", "c", "c", 3/10, 1000, []⟩]) :=
  c1_detect_returns_budget_capped_size ⟨"e1", "t", "s", [], false⟩ _ 200
    (by norm_num [List.forall_mem_cons])
    (by norm_num [totalCost])
    (by norm_num [profitPct, totalCost, MIN_PROFIT_PCT])
    (by norm_num [profitPct, totalCost, MAX_PROFIT_PCT])
    (by norm_num)
    (by norm_num [minAvailableSize, totalCost, MIN_EXECUTABLE_SIZE, min_def])

/-! ### Stable-sort lemmas for the scanner -/

theorem insertOppDesc_perm (x : ArbitrageOpportunity)
    (l : List ArbitrageOpportunity) : List.Perm (insertOppDesc x l) (x :: l) := by
  induction l with
  | nil => exact List.Perm.refl _
  | cons y ys ih =>
      unfold insertOppDesc
      by_cases h : x.profit_pct ≤ y.profit_pct
      · rw [if_pos h]
        exact (ih.cons y).trans (List.Perm.swap x y ys)
      · rw [if_neg h]

theorem insertOppDesc_pairwise (x : ArbitrageOpportunity)
    (l : List ArbitrageOpportunity)
    (h : l.Pairwise (fun a b => b.profit_pct ≤ a.profit_pct)) :
    (insertOppDesc x l).Pairwise (fun a b => b.profit_pct ≤ a.profit_pct) := by
  induction l with
  | nil => simp [insertOppDesc]
  | cons y ys ih =>
      rw [List.pairwise_cons] at h
      obtain ⟨hy, hys⟩ := h
      unfold insertOppDesc
      by_cases hle : x.profit_pct ≤ y.profit_pct
      · rw [if_pos hle, List.pairwise_cons]
        refine ⟨?_, ih hys⟩
        intro z hz
        rcases List.mem_cons.mp ((insertOppDesc_perm x ys).mem_iff.mp hz) with rfl | hzys
        · exact hle
        · exact hy z hzys
      · rw [if_neg hle, List.pairwise_cons]
        push_neg at hle
        refine ⟨?_, List.pairwise_cons.mpr ⟨hy, hys⟩⟩
        intro z hz
        rcases List.mem_cons.mp hz with rfl | hzys
        · exact le_of_lt hle
        · exact le_trans (hy z hzys) (le_of_lt hle)

theorem insertOppDesc_filter (x : ArbitrageOpportunity)
    (l : List ArbitrageOpportunity) (v : ℚ)
    (h : l.Pairwise (fun a b => b.profit_pct ≤ a.profit_pct)) :
    (insertOppDesc x l).filter (fun o => decide (o.profit_pct = v)) =
      l.filter (fun o => decide (o.profit_pct = v)) ++
        [x].filter (fun o => decide (o.profit_pct = v)) := by
  induction l with
  | nil => simp [insertOppDesc]
  | cons y ys ih =>
      rw [List.pairwise_cons] at h
      obtain ⟨hy, hys⟩ := h
      unfold insertOppDesc
      by_cases hle : x.profit_pct ≤ y.profit_pct
      · rw [if_pos hle, List.filter_cons, List.filter_cons, ih hys]
        cases hpy : decide (y.profit_pct = v) <;> simp [hpy]
      · rw [if_neg hle]
        push_neg at hle
        by_cases hxv : x.profit_pct = v
        · have hnil : (y :: ys).filter (fun o => decide (o.profit_pct = v)) = [] := by
            rw [List.filter_eq_nil_iff]
            intro z hz
            have hzlt : z.profit_pct < x.profit_pct := by
              rcases List.mem_cons.mp hz with rfl | hzys
              · exact hle
              · exact lt_of_le_of_lt (hy z hzys) hle
            simp only [decide_eq_true_eq]
            intro hzv
            rw [hzv, hxv] at hzlt
            exact lt_irrefl v hzlt
          simp [List.filter_cons, hxv, hnil]
        · simp [List.filter_cons, hxv]

theorem sortFold_spec (l acc : List ArbitrageOpportunity)
    (hacc : acc.Pairwise (fun a b => b.profit_pct ≤ a.profit_pct)) :
    (l.foldl (fun a x => insertOppDesc x a) acc).Pairwise
        (fun a b => b.profit_pct ≤ a.profit_pct) ∧
    List.Perm (l.foldl (fun a x => insertOppDesc x a) acc) (acc ++ l) ∧
    ∀ v : ℚ, (l.foldl (fun a x => insertOppDesc x a) acc).filter
        (fun o => decide (o.profit_pct = v)) =
      acc.filter (fun o => decide (o.profit_pct = v)) ++
        l.filter (fun o => decide (o.profit_pct = v)) := by
  induction l generalizing acc with
  | nil => exact ⟨hacc, by simp, by simp⟩
  | cons x xs ih =>
      have hins := insertOppDesc_pairwise x acc hacc
      obtain ⟨hs, hp, hf⟩ := ih (insertOppDesc x acc) hins
      refine ⟨hs, ?_, ?_⟩
      · refine hp.trans ?_
        refine ((insertOppDesc_perm x acc).append_right xs).trans ?_
        exact List.perm_middle.symm
      · intro v
        rw [List.foldl_cons, hf v, insertOppDesc_filter x acc v hacc,
          List.filter_cons]
        cases hpx : decide (x.profit_pct = v) <;>
          simp [hpx, List.append_assoc]

/-! ### Claim C6 -/

/-- C6: scan_for_opportunities is sorted by profit_pct descending, ties
keep the pre-sort encounter order (the sorted list filtered to any fixed
profit value equals the collected list filtered likewise), and every
element is a non-absent detect_arbitrage result for one of the scanned
events under its remaining budget. -/
theorem c6_scan_sorted_complete (events : List MultiOutcomeEvent)
    (quotesOf : MultiOutcomeEvent → List OutcomeQuote) (costs : String → ℚ) :
    (scan_for_opportunities events quotesOf costs).Pairwise
        (fun a b => b.profit_pct ≤ a.profit_pct) ∧
    (∀ v : ℚ, (scan_for_opportunities events quotesOf costs).filter
        (fun o => decide (o.profit_pct = v)) =
      (collectOpportunities events quotesOf costs).filter
        (fun o => decide (o.profit_pct = v))) ∧
    ∀ opp ∈ scan_for_opportunities events quotesOf costs,
      ∃ event ∈ events,
        detect_arbitrage event (quotesOf event)
          (some (MAX_POSITION_COST - costs event.event_id)) = some opp := by
  obtain ⟨hs, hp, hf⟩ :=
    sortFold_spec (collectOpportunities events quotesOf costs) [] List.Pairwise.nil
  refine ⟨hs, ?_, ?_⟩
  · intro v
    simpa [scan_for_opportunities, sortByProfitDesc] using hf v
  · intro opp hopp
    have hmem : opp ∈ collectOpportunities events quotesOf costs := by
      have := hp.mem_iff.mp hopp
      simpa using this
    obtain ⟨event, hev, hdet⟩ := List.mem_filterMap.mp hmem
    refine ⟨event, hev, ?_⟩
    by_cases hrem : MAX_POSITION_COST - costs event.event_id ≤ 0
    · rw [if_pos hrem] at hdet
      cases hdet
    · rw [if_neg hrem] at hdet
      exact hdet

/-! ### Compensation lemmas -/

theorem filter_filled_positive (fills : List LegFill)
    (h : ∀ f ∈ fills, f.status = "filled" → 0 < f.filled_size) :
    fills.filter (fun f => f.status == "filled" && decide (0 < f.filled_size)) =
      fills.filter (fun f => f.status == "filled") := by
  apply List.filter_congr
  intro f hf
  cases hs : (f.status == "filled") with
  | false => simp
  | true =>
      have heq : f.status = "filled" := by simpa using hs
      simp [h f hf heq]

theorem filter_failed_ne_nil_iff (fills : List LegFill) :
    fills.filter (fun f => !(f.status == "filled")) ≠ [] ↔
      ∃ f ∈ fills, f.status ≠ "filled" := by
  constructor
  · intro hne
    by_contra hno
    push_neg at hno
    apply hne
    rw [List.filter_eq_nil_iff]
    intro f hf
    simp [hno f hf]
  · rintro ⟨f, hf, hne⟩ hnil
    rw [List.filter_eq_nil_iff] at hnil
    exact hnil f hf (by simp [hne])

theorem filter_filled_ne_nil_iff (fills : List LegFill) :
    fills.filter (fun f => f.status == "filled") ≠ [] ↔
      ∃ f ∈ fills, f.status = "filled" := by
  constructor
  · intro hne
    by_contra hno
    push_neg at hno
    apply hne
    rw [List.filter_eq_nil_iff]
    intro f hf
    simp [hno f hf]
  · rintro ⟨f, hf, heq⟩ hnil
    rw [List.filter_eq_nil_iff] at hnil
    exact hnil f hf (by simp [heq])

/-! ### Claim C2 -/

/-- C2: compensation submits sell orders exactly when the execution is
live, not every leg filled, and at least one did; then it submits one
sell per filled leg, sized to the leg's filled quantity, priced
max(0.01, round(fill_price − 0.02, 2)); in paper mode it never submits.
(Stated for fill sets where a status-"filled" leg has a positive filled
quantity, which holds for every fill the executor constructs.) -/
theorem c2_compensation_characterised (is_paper : Bool) (fills : List LegFill)
    (h : ∀ f ∈ fills, f.status = "filled" → 0 < f.filled_size) :
    (compensationOrders is_paper fills ≠ [] ↔
      (is_paper = false ∧ (∃ f ∈ fills, f.status ≠ "filled") ∧
        ∃ f ∈ fills, f.status = "filled")) ∧
    ((∃ f ∈ fills, f.status ≠ "filled") →
      compensationOrders false fills =
        (fills.filter (fun f => f.status == "filled")).map (fun leg =>
          { token_id := leg.token_id
            price := max (1/100)
              (pyRound (leg.actual_price.getD leg.planned_price - 2/100) 2)
            size := leg.filled_size
            side := "SELL"
            order_type := "GTC" })) ∧
    compensationOrders true fills = [] := by
  have hhandle : handlePartialExecution fills =
      (fills.filter (fun f => f.status == "filled")).map (fun leg =>
        { token_id := leg.token_id
          price := max (1/100)
            (pyRound (leg.actual_price.getD leg.planned_price - 2/100) 2)
          size := leg.filled_size
          side := "SELL"
          order_type := "GTC" }) := by
    unfold handlePartialExecution sell_position_order
    rw [filter_filled_positive fills h]
  have hlen : (¬ (fills.filter (fun f => !(f.status == "filled"))).length = 0) ↔
      ∃ f ∈ fills, f.status ≠ "filled" := by
    rw [← filter_failed_ne_nil_iff]
    simp [List.length_eq_zero]
  refine ⟨?_, ?_, ?_⟩
  · unfold compensationOrders
    by_cases hcond : ¬ (fills.filter (fun f => !(f.status == "filled"))).length = 0 ∧
        ¬ fills.filter (fun f => f.status == "filled") = [] ∧ ¬ is_paper = true
    · rw [if_pos hcond]
      obtain ⟨h1, h2, h3⟩ := hcond
      constructor
      · intro _
        exact ⟨Bool.not_eq_true is_paper ▸ h3, hlen.mp h1,
          (filter_filled_ne_nil_iff fills).mp h2⟩
      · intro _
        rw [hhandle]
        intro hmap
        exact h2 (List.map_eq_nil_iff.mp hmap)
    · rw [if_neg hcond]
      constructor
      · intro hne
        exact absurd rfl hne
      · rintro ⟨hpaper, hfailed, hfilled⟩
        exact absurd ⟨hlen.mpr hfailed, (filter_filled_ne_nil_iff fills).mpr hfilled,
          by simp [hpaper]⟩ hcond
  · intro hfailed
    by_cases hfil : ∃ f ∈ fills, f.status = "filled"
    · unfold compensationOrders
      rw [if_pos ⟨hlen.mpr hfailed, (filter_filled_ne_nil_iff fills).mpr hfil,
        by simp⟩]
      exact hhandle
    · have hnil : fills.filter (fun f => f.status == "filled") = [] := by
        by_contra hne
        exact hfil ((filter_filled_ne_nil_iff fills).mp hne)
      unfold compensationOrders
      rw [if_neg]
      · rw [hnil]
        simp
      · rintro ⟨-, h2, -⟩
        exact h2 hnil
  · unfold compensationOrders
    rw [if_neg]
    rintro ⟨-, -, h3⟩
    exact h3 rfl

/-- C2 witness: one filled leg (size 5, fill price 0.50) and one rejected
leg in live mode produce exactly one sell order, sized 5 and priced
round(0.48, 2). -/
theorem c2_witness :
    compensationOrders false
      ([⟨"t1", "A", 1/2, some (1/2), 5, 5, some "o1", some "", 0, "filled", none⟩,
        ⟨"t2", "B", 1/3, none, 5, 0, none, none, 0, "rejected", none⟩] : List LegFill) =
      (([⟨"t1", "A", 1/2, some (1/2), 5, 5, some "o1", some "", 0, "filled", none⟩,
         ⟨"t2", "B", 1/3, none, 5, 0, none, none, 0, "rejected", none⟩] :
          List LegFill).filter
          (fun f => f.status == "filled")).map (fun leg =>
        { token_id := leg.token_id
          price := max (1/100)
            (pyRound (leg.actual_price.getD leg.planned_price - 2/100) 2)
          size := leg.filled_size
          side := "SELL"
          order_type := "GTC" }) :=
  (c2_compensation_characterised false
    ([⟨"t1", "A", 1/2, some (1/2), 5, 5, some "o1", some "", 0, "filled", none⟩,
      ⟨"t2", "B", 1/3, none, 5, 0, none, none, 0, "rejected", none⟩] : List LegFill)
    (by
      intro f hf hstatus
      rcases List.mem_cons.mp hf with rfl | hf2
      · norm_num
      · rcases List.mem_singleton.mp hf2 with rfl
        exact absurd hstatus (by decide))).2.1
    ⟨(⟨"t2", "B", 1/3, none, 5, 0, none, none, 0, "rejected", none⟩ : LegFill),
      by simp, by simp⟩

/-! ### Claim C8 -/

/-- C8: when the FOK order for a leg is rejected because the venue does
not support atomic-fill orders, then with ALLOW_GTC_FALLBACK true the
leg is retried exactly once as a GTC order (and, when that placement
succeeds, the LegFill's terminal status and filled size come from the
usual order-status polling of the GTC order); with the flag false the
only order submitted is the FOK one and the leg is recorded rejected. -/
theorem c8_fok_gtc_fallback (venue : Venue) (quote : OutcomeQuote) (size : ℚ)
    (h1 : (venue.placeOrder (fokRequest quote size)).success = false)
    (h2 : isFokUnsupported
      ((venue.placeOrder (fokRequest quote size)).error.getD "") = true) :
    (execute_single_leg_live true venue quote size).2 =
      [fokRequest quote size, gtcRequest quote size] ∧
    ((venue.placeOrder (gtcRequest quote size)).success = true →
      (execute_single_leg_live true venue quote size).1.status =
        (venue.pollOrderStatus
          ((venue.placeOrder (gtcRequest quote size)).order_id.getD "")).1 ∧
      (execute_single_leg_live true venue quote size).1.filled_size =
        (venue.pollOrderStatus
          ((venue.placeOrder (gtcRequest quote size)).order_id.getD "")).2.1) ∧
    (execute_single_leg_live false venue quote size).2 = [fokRequest quote size] ∧
    (execute_single_leg_live false venue quote size).1.status = "rejected" := by
  refine ⟨?_, ?_, ?_, ?_⟩
  · cases hsucc : (venue.placeOrder (gtcRequest quote size)).success <;>
      simp [execute_single_leg_live, h1, h2, hsucc]
  · intro hsucc
    simp [execute_single_leg_live, h1, h2, hsucc]
  · simp [execute_single_leg_live, h1, h2]
  · simp [execute_single_leg_live, h1, h2]

set_option maxRecDepth 20000 in
/-- C8 witness: against a venue that rejects FOK as unsupported and
fills GTC orders, the fallback and no-fallback behaviours are exhibited
on a concrete leg. -/
theorem c8_witness :
    (execute_single_leg_live true fokRejectingVenue ⟨"t", "A", "m", 45/100, 10, []⟩ 5).2 =
      [fokRequest ⟨"t", "A", "m", 45/100, 10, []⟩ 5,
       gtcRequest ⟨"t", "A", "m", 45/100, 10, []⟩ 5] ∧
    ((fokRejectingVenue.placeOrder (gtcRequest ⟨"t", "A", "m", 45/100, 10, []⟩ 5)).success = true →
      (execute_single_leg_live true fokRejectingVenue ⟨"t", "A", "m", 45/100, 10, []⟩ 5).1.status =
        (fokRejectingVenue.pollOrderStatus
          ((fokRejectingVenue.placeOrder
            (gtcRequest ⟨"t", "A", "m", 45/100, 10, []⟩ 5)).order_id.getD "")).1 ∧
      (execute_single_leg_live true fokRejectingVenue ⟨"t", "A", "m", 45/100, 10, []⟩ 5).1.filled_size =
        (fokRejectingVenue.pollOrderStatus
          ((fokRejectingVenue.placeOrder
            (gtcRequest ⟨"t", "A", "m", 45/100, 10, []⟩ 5)).order_id.getD "")).2.1) ∧
    (execute_single_leg_live false fokRejectingVenue ⟨"t", "A", "m", 45/100, 10, []⟩ 5).2 =
      [fokRequest ⟨"t", "A", "m", 45/100, 10, []⟩ 5] ∧
    (execute_single_leg_live false fokRejectingVenue ⟨"t", "A", "m", 45/100, 10, []⟩ 5).1.status =
      "rejected" :=
  c8_fok_gtc_fallback fokRejectingVenue ⟨"t", "A", "m", 45/100, 10, []⟩ 5
    rfl (by decide)

/-! ### Paper-mode lemmas -/

theorem clamp_pyInt_eq_clamp_floor (q : ℚ) :
    (if (pyInt q : ℚ) < 1 then (1 : ℚ) else (pyInt q : ℚ)) =
    (if (⌊q⌋ : ℚ) < 1 then (1 : ℚ) else (⌊q⌋ : ℚ)) := by
  unfold pyInt
  by_cases hq : q < 0
  · rw [if_pos hq]
    have h0 : ⌈q⌉ ≤ 0 := Int.ceil_le.mpr (by exact_mod_cast hq.le)
    have hceil : ((⌈q⌉ : ℤ) : ℚ) < 1 := by
      have h0q : ((⌈q⌉ : ℤ) : ℚ) ≤ 0 := by exact_mod_cast h0
      linarith
    have hfloor : ((⌊q⌋ : ℤ) : ℚ) < 1 := by
      have h0f : ⌊q⌋ ≤ 0 := le_trans (Int.floor_le_ceil q) h0
      have h0q : ((⌊q⌋ : ℤ) : ℚ) ≤ 0 := by exact_mod_cast h0f
      linarith
    rw [if_pos hceil, if_pos hfloor]
  · rw [if_neg hq]

theorem paper_fills_no_failed (quotes : List OutcomeQuote) (es : ℚ) :
    (quotes.map (fun q => execute_single_leg_paper q es)).filter
      (fun f => !(f.status == "filled")) = [] := by
  induction quotes with
  | nil => rfl
  | cons q qs ih => simp [execute_single_leg_paper, ih]

theorem paper_fills_all_kept (quotes : List OutcomeQuote) (es : ℚ) :
    (quotes.map (fun q => execute_single_leg_paper q es)).filter
      (fun f => f.status == "filled") =
      quotes.map (fun q => execute_single_leg_paper q es) := by
  induction quotes with
  | nil => rfl
  | cons q qs ih => simp [execute_single_leg_paper, ih]

theorem paper_fills_cost (quotes : List OutcomeQuote) (es : ℚ) :
    ((quotes.map (fun q => execute_single_leg_paper q es)).map
      (fun f => f.actual_price.getD f.planned_price)).sum = totalCost quotes := by
  unfold totalCost
  rw [List.map_map]
  rfl

theorem foldl_min_filled_const (l : List LegFill) (a : ℚ)
    (h : ∀ f ∈ l, f.filled_size = a) :
    l.foldl (fun m g => min m g.filled_size) a = a := by
  induction l with
  | nil => rfl
  | cons f fs ih =>
      rw [List.foldl_cons, h f (List.mem_cons_self f fs), min_self]
      exact ih (fun g hg => h g (List.mem_cons_of_mem f hg))

/-! ### Claim C5 -/

/-- C5: paper-mode execution of an opportunity (no size override, quotes
nonempty, total_cost the sum of the quoted asks, as detect_arbitrage
guarantees): every leg fills, total_filled_size is the resolved size
(floor of executable_size, minimum 1), total_cost_actual equals the
opportunity's total_cost, and the result is independent of the quote
refresh environment and venue (the pre-trade refresh is not performed). -/
theorem c5_paper_execution (allowGtc : Bool) (venue : Venue)
    (ws : Option (FeedState × ℚ)) (http : String → List (ℚ × ℚ))
    (opp : ArbitrageOpportunity)
    (hq : opp.quotes ≠ [])
    (hc : opp.total_cost = totalCost opp.quotes) :
    (execute_opportunity "paper" allowGtc venue ws http opp none).1.all_filled = true ∧
    (execute_opportunity "paper" allowGtc venue ws http opp none).1.total_filled_size =
      (if (⌊opp.executable_size⌋ : ℚ) < 1 then 1 else (⌊opp.executable_size⌋ : ℚ)) ∧
    (execute_opportunity "paper" allowGtc venue ws http opp none).1.total_cost_actual =
      opp.total_cost ∧
    (∀ (allowGtc2 : Bool) (venue2 : Venue) (ws2 : Option (FeedState × ℚ))
        (http2 : String → List (ℚ × ℚ)),
      execute_opportunity "paper" allowGtc2 venue2 ws2 http2 opp none =
        execute_opportunity "paper" allowGtc venue ws http opp none) := by
  have hred : execute_opportunity "paper" allowGtc venue ws http opp none =
      (aggregateResult opp (opp.quotes.map (fun q => execute_single_leg_paper q
          (if (pyInt opp.executable_size : ℚ) < 1 then 1
           else (pyInt opp.executable_size : ℚ)))),
       compensationOrders true (opp.quotes.map (fun q => execute_single_leg_paper q
          (if (pyInt opp.executable_size : ℚ) < 1 then 1
           else (pyInt opp.executable_size : ℚ))))) := rfl
  refine ⟨?_, ?_, ?_, ?_⟩
  · rw [hred]
    unfold aggregateResult
    simp [paper_fills_no_failed]
  · rw [hred]
    unfold aggregateResult
    rw [← clamp_pyInt_eq_clamp_floor]
    simp only [paper_fills_all_kept]
    cases hqs : opp.quotes with
    | nil => exact absurd hqs hq
    | cons q0 qs =>
        simp only [List.map_cons]
        show (qs.map (fun q => execute_single_leg_paper q _)).foldl
          (fun m g => min m g.filled_size)
          (execute_single_leg_paper q0 _).filled_size = _
        rw [show ∀ es, (execute_single_leg_paper q0 es).filled_size = es from fun _ => rfl]
        exact foldl_min_filled_const _ _ (by
          intro f hf
          obtain ⟨q, _, rfl⟩ := List.mem_map.mp hf
          rfl)
  · rw [hred]
    unfold aggregateResult
    simp only [paper_fills_cost]
    exact hc.symm
  · intro allowGtc2 venue2 ws2 http2
    rfl

/-- C5 witness: a one-leg opportunity priced 0.50 with executable size
7.5 fills fully in paper mode at size 7 and cost 0.50. -/
theorem c5_witness :
    (execute_opportunity "paper" false fokRejectingVenue none (fun _ => [])
        ⟨"e", "t", "s", [⟨"t1", "A", "m", 1/2, 9, []⟩], 1/2, 1/2, 100, 15/2, false⟩
        none).1.all_filled = true ∧
    (execute_opportunity "paper" false fokRejectingVenue none (fun _ => [])
        ⟨"e", "t", "s", [⟨"t1", "A", "m", 1/2, 9, []⟩], 1/2, 1/2, 100, 15/2, false⟩
        none).1.total_filled_size =
      (if (⌊(15/2 : ℚ)⌋ : ℚ) < 1 then 1 else (⌊(15/2 : ℚ)⌋ : ℚ)) ∧
    (execute_opportunity "paper" false fokRejectingVenue none (fun _ => [])
        ⟨"e", "t", "s", [⟨"t1", "A", "m", 1/2, 9, []⟩], 1/2, 1/2, 100, 15/2, false⟩
        none).1.total_cost_actual = (1/2 : ℚ) ∧
    (∀ (allowGtc2 : Bool) (venue2 : Venue) (ws2 : Option (FeedState × ℚ))
        (http2 : String → List (ℚ × ℚ)),
      execute_opportunity "paper" allowGtc2 venue2 ws2 http2
          ⟨"e", "t", "s", [⟨"t1", "A", "m", 1/2, 9, []⟩], 1/2, 1/2, 100, 15/2, false⟩
          none =
        execute_opportunity "paper" false fokRejectingVenue none (fun _ => [])
          ⟨"e", "t", "s", [⟨"t1", "A", "m", 1/2, 9, []⟩], 1/2, 1/2, 100, 15/2, false⟩
          none) :=
  c5_paper_execution false fokRejectingVenue none (fun _ => [])
    ⟨"e", "t", "s", [⟨"t1", "A", "m", 1/2, 9, []⟩], 1/2, 1/2, 100, 15/2, false⟩
    (by simp)
    (by norm_num [totalCost])

/-! ### Claim C3 -/

/-- C3: in live mode, when the pre-trade refresh reports the opportunity
gone (refresh_quotes = none, which on the forced-HTTP path happens
exactly when the refreshed aggregate cost is ≥ 1 or some refreshed leg
lacks a valid ask), execute_opportunity aborts with an all-failed result
attempting zero legs — empty fill list, all_filled false, zero counts
and totals, num_legs_failed = number of legs — and submits no order. -/
theorem c3_refresh_abort (mode : String) (allowGtc : Bool) (venue : Venue)
    (ws : Option (FeedState × ℚ)) (http : String → List (ℚ × ℚ))
    (opp : ArbitrageOpportunity) (size : Option ℚ)
    (hmode : mode = "live")
    (href : refresh_quotes ws http opp = none) :
    ((execute_opportunity mode allowGtc venue ws http opp size).1.leg_fills = [] ∧
     (execute_opportunity mode allowGtc venue ws http opp size).1.all_filled = false ∧
     (execute_opportunity mode allowGtc venue ws http opp size).1.num_legs_filled = 0 ∧
     (execute_opportunity mode allowGtc venue ws http opp size).1.total_filled_size = 0 ∧
     (execute_opportunity mode allowGtc venue ws http opp size).1.total_cost_actual = 0 ∧
     (execute_opportunity mode allowGtc venue ws http opp size).1.num_legs_failed =
       opp.quotes.length ∧
     (execute_opportunity mode allowGtc venue ws http opp size).2 = []) ∧
    ∀ (http2 : String → List (ℚ × ℚ)) (opp2 : ArbitrageOpportunity),
      refresh_quotes none http2 opp2 = none ↔
        (1 ≤ totalCost (opp2.quotes.map (fun q => quoteFromAsks q (http2 q.token_id))) ∨
         ∃ q ∈ opp2.quotes.map (fun q => quoteFromAsks q (http2 q.token_id)),
           q.best_ask_price ≤ 0 ∨ q.available_size ≤ 0) := by
  constructor
  · subst hmode
    refine ⟨?_, ?_, ?_, ?_, ?_, ?_, ?_⟩ <;>
      simp [execute_opportunity, href]
  · intro http2 opp2
    by_cases h1 : 1 ≤ totalCost (opp2.quotes.map (fun q => quoteFromAsks q (http2 q.token_id)))
    · simp [refresh_quotes, h1]
    · by_cases h2 : ∃ q ∈ opp2.quotes.map (fun q => quoteFromAsks q (http2 q.token_id)),
          q.best_ask_price ≤ 0 ∨ q.available_size ≤ 0
      · simp [refresh_quotes, h1, h2]
        refine exists_congr fun x => and_congr_right fun _ => ?_
        constructor
        · intro himp
          by_cases hp : 0 < (quoteFromAsks x (http2 x.token_id)).best_ask_price
          · exact Or.inr (himp hp)
          · exact Or.inl (not_lt.mp hp)
        · intro hor hp
          exact hor.resolve_left (not_le.mpr hp)
      · simp [refresh_quotes, h1, h2]
        refine exists_congr fun x => and_congr_right fun _ => ?_
        constructor
        · intro himp
          by_cases hp : 0 < (quoteFromAsks x (http2 x.token_id)).best_ask_price
          · exact Or.inr (himp hp)
          · exact Or.inl (not_lt.mp hp)
        · intro hor hp
          exact hor.resolve_left (not_le.mpr hp)

/-- C3 witness: a one-leg opportunity whose HTTP-refreshed book prices
the leg at 1.00 (refreshed cost ≥ 1) makes live execution abort with
zero legs attempted and no order placed. -/
theorem c3_witness :
    (execute_opportunity "live" false fokRejectingVenue none (fun _ => [(1, 5)])
        ⟨"e", "t", "s", [⟨"t1", "A", "m", 45/100, 10, []⟩], 45/100, 55/100, 100, 10, false⟩
        none).1.leg_fills = [] ∧
    (execute_opportunity "live" false fokRejectingVenue none (fun _ => [(1, 5)])
        ⟨"e", "t", "s", [⟨"t1", "A", "m", 45/100, 10, []⟩], 45/100, 55/100, 100, 10, false⟩
        none).1.all_filled = false ∧
    (execute_opportunity "live" false fokRejectingVenue none (fun _ => [(1, 5)])
        ⟨"e", "t", "s", [⟨"t1", "A", "m", 45/100, 10, []⟩], 45/100, 55/100, 100, 10, false⟩
        none).1.num_legs_filled = 0 ∧
    (execute_opportunity "live" false fokRejectingVenue none (fun _ => [(1, 5)])
        ⟨"e", "t", "s", [⟨"t1", "A", "m", 45/100, 10, []⟩], 45/100, 55/100, 100, 10, false⟩
        none).1.total_filled_size = 0 ∧
    (execute_opportunity "live" false fokRejectingVenue none (fun _ => [(1, 5)])
        ⟨"e", "t", "s", [⟨"t1", "A", "m", 45/100, 10, []⟩], 45/100, 55/100, 100, 10, false⟩
        none).1.total_cost_actual = 0 ∧
    (execute_opportunity "live" false fokRejectingVenue none (fun _ => [(1, 5)])
        ⟨"e", "t", "s", [⟨"t1", "A", "m", 45/100, 10, []⟩], 45/100, 55/100, 100, 10, false⟩
        none).1.num_legs_failed =
      (⟨"e", "t", "s", [⟨"t1", "A", "m", 45/100, 10, []⟩], 45/100, 55/100, 100, 10,
        false⟩ : ArbitrageOpportunity).quotes.length ∧
    (execute_opportunity "live" false fokRejectingVenue none (fun _ => [(1, 5)])
        ⟨"e", "t", "s", [⟨"t1", "A", "m", 45/100, 10, []⟩], 45/100, 55/100, 100, 10, false⟩
        none).2 = [] :=
  (c3_refresh_abort "live" false fokRejectingVenue none (fun _ => [(1, 5)])
    ⟨"e", "t", "s", [⟨"t1", "A", "m", 45/100, 10, []⟩], 45/100, 55/100, 100, 10, false⟩
    none rfl
    (by norm_num [refresh_quotes, quoteFromAsks, totalCost])).1

end ArbiBot
